import Mathlib

/-! Shallow embedding of the tool-calling orchestration core of the
aws-bedrock-mcp-lambda repository: the Message dataclass, MCPClient
(connect_to_server, process_query, _process_response, _handle_tool_call,
cleanup) from src/lambda/mcp_client.py, and the query driver process_query
from src/lambda/mcp_handler.py. External collaborators (the Bedrock converse
endpoint, the MCP stdio session) are modelled as oracle functions supplied in
an environment record; the observable interactions with them are recorded in
an explicit event trace. -/

namespace McpLambda

/-- Tool-call arguments. The code passes the argument object through
verbatim and only ever formats it into a narrative string, so it is modelled
as an opaque string payload. -/
abbrev ToolInput := String

/-- One content block inside a conversation message, mirroring the dict
shapes built by the Message dataclass in mcp_client.py: a plain text block, a
toolUse block (toolUseId, name, input) and a toolResult block (toolUseId and
the text payload that the code nests under content/json/text). -/
inductive ContentBlock where
  | text (s : String)
  | toolUse (toolUseId name : String) (input : ToolInput)
  | toolResult (toolUseId : String) (payload : String)
deriving DecidableEq, Repr

/-- The Message dataclass (mcp_client.py lines 12-15): a role string and a
content list. -/
structure Message where
  role : String
  content : List ContentBlock
deriving DecidableEq, Repr

/-- Message.user (mcp_client.py lines 17-19). -/
def Message.user (text : String) : Message :=
  ⟨"user", [.text text]⟩

/-- Message.assistant (mcp_client.py lines 21-23). -/
def Message.assistant (text : String) : Message :=
  ⟨"assistant", [.text text]⟩

/-- Message.tool_result (mcp_client.py lines 25-35): a user-role message with
one toolResult block; the payload models the text extracted from the first
item of the tool result content. No check of any kind is performed. -/
def Message.tool_result (tool_use_id : String) (payload : String) : Message :=
  ⟨"user", [.toolResult tool_use_id payload]⟩

/-- Message.tool_request (mcp_client.py lines 37-48): an assistant-role
message with one toolUse block. -/
def Message.tool_request (tool_use_id name : String) (input_data : ToolInput) : Message :=
  ⟨"assistant", [.toolUse tool_use_id name input_data]⟩

/-- The input_schema of a tool as advertised by the server: named properties
(keys with their schema text, carried verbatim) and required names. -/
structure InputSchema where
  properties : List (String × String)
  required : List String
deriving DecidableEq, Repr

/-- A tool descriptor as assembled in MCPClient.process_query (mcp_client.py
lines 105-109): name, description, input_schema. -/
structure ToolDescriptor where
  name : String
  description : String
  input_schema : InputSchema
deriving DecidableEq, Repr

/-- The json object inside the Bedrock toolSpec inputSchema. -/
structure ToolSpecJson where
  type : String
  properties : List (String × String)
  required : List String
deriving DecidableEq, Repr

/-- The inputSchema wrapper of a Bedrock toolSpec. -/
structure ToolSpecInputSchema where
  json : ToolSpecJson
deriving DecidableEq, Repr

/-- The toolSpec body sent to Bedrock. -/
structure ToolSpecBody where
  name : String
  description : String
  inputSchema : ToolSpecInputSchema
deriving DecidableEq, Repr

/-- One entry of the toolConfig tools list sent to Bedrock. -/
structure BedrockTool where
  toolSpec : ToolSpecBody
deriving DecidableEq, Repr

/-- Message.to_bedrock_format (mcp_client.py lines 50-64): one toolSpec per
descriptor, copying name, description and the properties and required fields
of the input_schema verbatim under a fixed type "object". -/
def Message.to_bedrock_format (tools_list : List ToolDescriptor) : List BedrockTool :=
  tools_list.map fun tool =>
    ⟨⟨tool.name, tool.description,
      ⟨⟨"object", tool.input_schema.properties, tool.input_schema.required⟩⟩⟩⟩

/-- One content block of a Bedrock response message: the code dispatches on
whether the dict has a text key or a toolUse key (mcp_client.py lines
130-137). -/
inductive RespBlock where
  | text (s : String)
  | toolUse (toolUseId name : String) (input : ToolInput)
deriving DecidableEq, Repr

/-- A Bedrock converse response, reduced to the fields the client reads:
stopReason and the content list of output.message. The stop reason is kept as
a string because the code compares string values and has no else branch for
unknown ones. -/
structure BedrockResponse where
  stopReason : String
  content : List RespBlock
deriving DecidableEq, Repr

/-- Errors that can abort a query. unsupportedEndpointKind models the
ValueError raised by connect_to_server for a script that is neither .py nor
.js (named UnsupportedEndpointKind in the spec); sessionInitError,
listToolsError, modelRequestError and toolInvocationError model failures of
the session handshake, tool listing, Bedrock call and tool call, all of which
propagate uncaught; keyError and indexError model the Python lookup errors on
a malformed end_turn content list; danglingToolResult exists only in the
spec. -/
inductive Err where
  | unsupportedEndpointKind
  | sessionInitError
  | listToolsError
  | modelRequestError
  | toolInvocationError
  | keyError
  | indexError
  | danglingToolResult
deriving DecidableEq, Repr

/-- Observable interactions with the outside world, in order. -/
inductive Event where
  | startProcess (command : String)
  | handshake
  | listTools
  | modelCall
  | toolCall (name : String)
  | cleanup
deriving DecidableEq, Repr

/-- Predicate for counting model calls in a trace. -/
def isModelCall : Event → Bool
  | .modelCall => true
  | _ => false

/-- Predicate for counting cleanup events in a trace. -/
def isCleanup : Event → Bool
  | .cleanup => true
  | _ => false

/-- Oracles for the two external calls made inside the response loop:
self.bedrock.converse (given the messages and the tool config) and
self.session.call_tool (given tool name and arguments, returning the text of
the first result content item). Either may fail; failures propagate. -/
structure Env where
  model : List Message → List BedrockTool → Except Err BedrockResponse
  callTool : String → ToolInput → Except Err String

/-- MCPClient._handle_tool_call (mcp_client.py lines 167-181): calls the tool
through the session, then appends the tool request message followed by the
tool result message to the history, and returns the narrative fragment. A
tool failure propagates before anything is appended. -/
def handle_tool_call (env : Env) (tool_use_id tool_name : String) (tool_args : ToolInput)
    (messages : List Message) : Except Err (List Message × List String) :=
  match env.callTool tool_name tool_args with
  | .error e => .error e
  | .ok payload =>
      .ok (messages ++ [Message.tool_request tool_use_id tool_name tool_args,
                        Message.tool_result tool_use_id payload],
           ["[Calling tool " ++ tool_name ++ " with args " ++ tool_args ++ "]"])

/-- The for loop of the tool_use branch of MCPClient._process_response
(mcp_client.py lines 130-141). Python iterates over the content list captured
when the loop starts even though the response variable is reassigned after
each tool call, so the block list is an explicit argument. A text block is
appended to the narrative and to history; a toolUse block is dispatched and
then a new Bedrock request is issued immediately, inside the for loop.
Returns the updated narrative, history and current response with the trace of
tool and model calls. -/
def processBlocks (env : Env) (tools : List BedrockTool) :
    List RespBlock → List String → List Message → BedrockResponse → List Event →
    Except Err (List String × List Message × BedrockResponse) × List Event
  | [], ft, ms, resp, ev => (.ok (ft, ms, resp), ev)
  | .text t :: rest, ft, ms, resp, ev =>
      processBlocks env tools rest (ft ++ ["[Thinking: " ++ t ++ "]"])
        (ms ++ [Message.assistant t]) resp ev
  | .toolUse id name input :: rest, ft, ms, resp, ev =>
      match handle_tool_call env id name input ms with
      | .error e => (.error e, ev ++ [.toolCall name])
      | .ok (ms₂, add) =>
          match env.model ms₂ tools with
          | .error e => (.error e, ev ++ [.toolCall name, .modelCall])
          | .ok resp₂ =>
              processBlocks env tools rest (ft ++ add) ms₂ resp₂
                (ev ++ [.toolCall name, .modelCall])

/-- MCPClient._process_response (mcp_client.py lines 120-165). The while True
loop is given explicit fuel counting how many further iterations the
interpreter may run; none is returned only on fuel exhaustion and is proved
unreachable for fuel at least MAX_TURNS = 10. Terminal stop reasons break
before the turn counter is incremented; the tool_use branch and the implicit
fall-through of an unknown stop reason increment the counter and check it
against 10 after the response has been processed. -/
def processLoop (env : Env) (tools : List BedrockTool) :
    Nat → BedrockResponse → List String → List Message → Nat → List Event →
    Option (Except Err (List String × List Message) × List Event)
  | 0, _, _, _, _, _ => none
  | fuel + 1, resp, ft, ms, tc, ev =>
    if resp.stopReason = "tool_use" then
      match processBlocks env tools resp.content
          (ft ++ ["received toolUse request"]) ms resp ev with
      | (.error e, ev₂) => some (.error e, ev₂)
      | (.ok (ft₂, ms₂, resp₂), ev₂) =>
          if tc + 1 ≥ 10 then
            some (.ok (ft₂ ++ ["\n[Max turns reached, ending conversation.]"], ms₂), ev₂)
          else
            processLoop env tools fuel resp₂ ft₂ ms₂ (tc + 1) ev₂
    else if resp.stopReason = "max_tokens" then
      some (.ok (ft ++ ["[Max tokens reached, ending conversation.]"], ms), ev)
    else if resp.stopReason = "stop_sequence" then
      some (.ok (ft ++ ["[Stop sequence reached, ending conversation.]"], ms), ev)
    else if resp.stopReason = "content_filtered" then
      some (.ok (ft ++ ["[Content filtered, ending conversation.]"], ms), ev)
    else if resp.stopReason = "end_turn" then
      match resp.content.head? with
      | some (.text t) => some (.ok (ft ++ [t], ms), ev)
      | some _ => some (.error .keyError, ev)
      | none => some (.error .indexError, ev)
    else
      if tc + 1 ≥ 10 then
        some (.ok (ft ++ ["\n[Max turns reached, ending conversation.]"], ms), ev)
      else
        processLoop env tools fuel resp ft ms (tc + 1) ev

/-- Full environment for one query: the loop oracles plus the server script
path used by the handler, the session handshake outcome and the tool listing
outcome. -/
structure FullEnv extends Env where
  endpointPath : String
  handshakeResult : Except Err Unit
  listTools : Except Err (List ToolDescriptor)

/-- Character-level model of the Python str.endswith test used by
connect_to_server. -/
def strEndsWith (s tail : String) : Bool :=
  tail.data.isSuffixOf s.data

/-- MCPClient.connect_to_server (mcp_client.py lines 75-87): raises ValueError
(the UnsupportedEndpointKind of the spec) before the server process is
started when the script path ends in neither .py nor .js; otherwise selects
python for .py and node otherwise, starts the host process and performs the
session handshake, failing with the handshake error if it does not
complete. -/
def connect_to_server (env : FullEnv) (server_script_path : String) :
    Except Err Unit × List Event :=
  if !(strEndsWith server_script_path ".py" || strEndsWith server_script_path ".js") then
    (.error .unsupportedEndpointKind, [])
  else
    let command := if strEndsWith server_script_path ".py" then "python" else "node"
    match env.handshakeResult with
    | .error e => (.error e, [.startProcess command])
    | .ok _ => (.ok (), [.startProcess command, .handshake])

/-- MCPClient.process_query (mcp_client.py lines 100-118): seeds the history
with the user turn, lists the tools, builds the Bedrock tool specification,
issues the first model request and hands over to the response loop, joining
the narrative fragments with double newlines. -/
def client_process_query (env : FullEnv) (query : String) (fuel : Nat) :
    Option (Except Err String × List Event) :=
  match env.listTools with
  | .error e => some (.error e, [.listTools])
  | .ok available_tools =>
      match env.model [Message.user query] (Message.to_bedrock_format available_tools) with
      | .error e => some (.error e, [.listTools, .modelCall])
      | .ok response =>
          match processLoop env.toEnv (Message.to_bedrock_format available_tools) fuel
              response [] [Message.user query] 0 [] with
          | none => none
          | some (.error e, tr) => some (.error e, [.listTools, .modelCall] ++ tr)
          | some (.ok (ft, _), tr) =>
              some (.ok (String.intercalate "\n\n" ft), [.listTools, .modelCall] ++ tr)

/-- process_query in mcp_handler.py (lines 61-78): connect and run the query
inside try, clean up in the finally block, so the cleanup event is emitted on
every exit path, error or success. -/
def handler_process_query (env : FullEnv) (query : String) (fuel : Nat) :
    Option (Except Err String × List Event) :=
  match connect_to_server env env.endpointPath with
  | (.error e, tr) => some (.error e, tr ++ [.cleanup])
  | (.ok _, tr) =>
      match client_process_query env query fuel with
      | none => none
      | some (r, tr₂) => some (r, tr ++ tr₂ ++ [.cleanup])

/-- The toolUse identifiers requested in a message. -/
def requestIds (m : Message) : List String :=
  m.content.filterMap fun b =>
    match b with
    | .toolUse id _ _ => some id
    | _ => none

/-- The toolResult identifiers referenced in a message. -/
def resultIds (m : Message) : List String :=
  m.content.filterMap fun b =>
    match b with
    | .toolResult id _ => some id
    | _ => none

/-- The history invariant of the spec: every tool result identifier is also
the identifier of a tool request appearing in a strictly earlier message. -/
def histInvariant (ms : List Message) : Prop :=
  ∀ (i : Nat) (m : Message), ms[i]? = some m →
    ∀ id ∈ resultIds m, id ∈ (ms.take i).flatMap requestIds

/-- The append of messages.append(Message.tool_result(...)) exactly as the
code performs it (mcp_client.py line 177): unconditional, with no check for a
matching earlier request. -/
def append_tool_result (ms : List Message) (tool_use_id payload : String) : List Message :=
  ms ++ [Message.tool_result tool_use_id payload]

/-- Modelled from the spec: append_tool_result with the DanglingToolResult
check described in section 4.2 of the spec (fail if no matching request
exists earlier in history). The code implements no such check; this
definition exists only to compare the spec reading with the code. -/
def append_tool_result_spec (ms : List Message) (tool_use_id payload : String) :
    Except Err (List Message) :=
  if tool_use_id ∈ ms.flatMap requestIds then
    .ok (ms ++ [Message.tool_result tool_use_id payload])
  else
    .error .danglingToolResult

/-- An environment whose two oracles always succeed, used to state behaviour
theorems free of failure side conditions. -/
structure TotalEnv where
  model : List Message → List BedrockTool → BedrockResponse
  callTool : String → ToolInput → String

/-- The Env induced by a TotalEnv. -/
def TotalEnv.env (t : TotalEnv) : Env :=
  { model := fun ms ts => .ok (t.model ms ts),
    callTool := fun n i => .ok (t.callTool n i) }

/-- Narrative fragments produced by the text blocks of a content list. -/
def thinkingTexts (blocks : List RespBlock) : List String :=
  blocks.filterMap fun b =>
    match b with
    | .text t => some ("[Thinking: " ++ t ++ "]")
    | _ => none

/-- Assistant turns appended to history by the text blocks of a content
list. -/
def assistantTurns (blocks : List RespBlock) : List Message :=
  blocks.filterMap fun b =>
    match b with
    | .text t => some (Message.assistant t)
    | _ => none

/-- True when a content list contains no toolUse block. -/
def hasNoToolUse (blocks : List RespBlock) : Bool :=
  blocks.all fun b =>
    match b with
    | .toolUse _ _ _ => false
    | _ => true

/-- Number of toolUse blocks in a content list. -/
def countToolUse (blocks : List RespBlock) : Nat :=
  blocks.countP fun b =>
    match b with
    | .toolUse _ _ _ => true
    | _ => false

/-- Narrative fragments of one full spin of the loop over a tool_use response
without toolUse blocks. -/
def iterOut (resp : BedrockResponse) : List String :=
  "received toolUse request" :: thinkingTexts resp.content

/-- k repetitions of the spin narrative. -/
def iterRepeat (k : Nat) (resp : BedrockResponse) : List String :=
  (List.replicate k (iterOut resp)).flatten

/-- k repetitions of the spin history additions. -/
def msRepeat (k : Nat) (resp : BedrockResponse) : List Message :=
  (List.replicate k (assistantTurns resp.content)).flatten

/-- A response that always requests one more tool call. -/
def toolUseResp : BedrockResponse :=
  ⟨"tool_use", [.toolUse "tu1" "get_forecast" "lat lon"]⟩

/-- An environment whose model always answers toolUseResp. -/
def loopTEnv : TotalEnv :=
  ⟨fun _ _ => toolUseResp, fun _ _ => "sunny"⟩

/-- A final answer response. -/
def endTurnResp : BedrockResponse :=
  ⟨"end_turn", [.text "done"]⟩

/-- A tool_use response carrying two toolUse blocks. -/
def twoToolResp : BedrockResponse :=
  ⟨"tool_use", [.toolUse "a1" "t1" "x", .toolUse "a2" "t2" "y"]⟩

/-- An environment whose model always answers endTurnResp. -/
def settleTEnv : TotalEnv :=
  ⟨fun _ _ => endTurnResp, fun _ _ => "r"⟩

/-- A fully successful concrete environment for witnesses. -/
def fullTestEnv : FullEnv :=
  { model := fun _ _ => .ok endTurnResp,
    callTool := fun _ _ => .ok "r",
    endpointPath := "mcp_server.py",
    handshakeResult := .ok (),
    listTools := .ok [] }

/-- fullTestEnv with an endpoint path of an unrecognized kind. -/
def badEndpointEnv : FullEnv :=
  { fullTestEnv with endpointPath := "mcp_server.txt" }

/-- A sample tool descriptor. -/
def sampleTool : ToolDescriptor :=
  ⟨"get_forecast", "weather forecast",
   ⟨[("lat", "number"), ("lon", "number")], ["lat", "lon"]⟩⟩

/-- A tool_use response whose content holds only a text block. -/
def textOnlyToolUseResp : BedrockResponse :=
  ⟨"tool_use", [.text "thinking aloud"]⟩

/-- C7: the tool specification payload built for Bedrock has one entry per
descriptor, shaped name, description, inputSchema.json with type object, and
its properties and required fields are equal to the properties and required
of the input_schema of the corresponding descriptor. -/
theorem tool_spec_round_trip (tools_list : List ToolDescriptor) (i : Nat)
    (tool : ToolDescriptor) (h : tools_list[i]? = some tool) :
    (Message.to_bedrock_format tools_list).length = tools_list.length ∧
    ∃ entry, (Message.to_bedrock_format tools_list)[i]? = some entry ∧
      entry.toolSpec.name = tool.name ∧
      entry.toolSpec.description = tool.description ∧
      entry.toolSpec.inputSchema.json.type = "object" ∧
      entry.toolSpec.inputSchema.json.properties = tool.input_schema.properties ∧
      entry.toolSpec.inputSchema.json.required = tool.input_schema.required := by
  constructor
  · simp [Message.to_bedrock_format]
  · refine ⟨⟨⟨tool.name, tool.description,
        ⟨⟨"object", tool.input_schema.properties, tool.input_schema.required⟩⟩⟩⟩,
      ?_, rfl, rfl, rfl, rfl, rfl⟩
    rw [Message.to_bedrock_format, List.getElem?_map, h]
    rfl

/-- Witness for tool_spec_round_trip at a concrete descriptor list. -/
theorem tool_spec_round_trip_witness :
    (Message.to_bedrock_format [sampleTool]).length = 1 ∧
    ∃ entry, (Message.to_bedrock_format [sampleTool])[0]? = some entry ∧
      entry.toolSpec.name = sampleTool.name ∧
      entry.toolSpec.description = sampleTool.description ∧
      entry.toolSpec.inputSchema.json.type = "object" ∧
      entry.toolSpec.inputSchema.json.properties = sampleTool.input_schema.properties ∧
      entry.toolSpec.inputSchema.json.required = sampleTool.input_schema.required :=
  tool_spec_round_trip [sampleTool] 0 sampleTool rfl

/-- C8: an endpoint path ending in neither .py nor .js makes
connect_to_server fail with the unsupported-kind error before the host
process is started (empty trace) and before any model request is made (the
whole query trace is just the cleanup event); a .py path selects the python
command and a .js path selects the node command. -/
theorem endpoint_kind_check :
    (∀ (env : FullEnv) (path : String),
        (strEndsWith path ".py" || strEndsWith path ".js") = false →
        connect_to_server env path = (.error .unsupportedEndpointKind, [])) ∧
    (∀ (env : FullEnv) (query : String) (fuel : Nat),
        (strEndsWith env.endpointPath ".py" || strEndsWith env.endpointPath ".js") = false →
        handler_process_query env query fuel =
          some (.error .unsupportedEndpointKind, [.cleanup])) ∧
    (∀ (env : FullEnv) (path : String), strEndsWith path ".py" = true →
        (connect_to_server env path).2.head? = some (.startProcess "python")) ∧
    (∀ (env : FullEnv) (path : String), strEndsWith path ".js" = true →
        strEndsWith path ".py" = false →
        (connect_to_server env path).2.head? = some (.startProcess "node")) := by
  refine ⟨?_, ?_, ?_, ?_⟩
  · intro env path h
    simp [connect_to_server, h]
  · intro env query fuel h
    have hc : connect_to_server env env.endpointPath =
        (.error .unsupportedEndpointKind, []) := by
      simp [connect_to_server, h]
    simp [handler_process_query, hc]
  · intro env path h
    rw [connect_to_server]
    rw [if_neg (by simp [h])]
    rw [if_pos h]
    cases env.handshakeResult <;> simp
  · intro env path hjs hpy
    rw [connect_to_server]
    rw [if_neg (by simp [hjs])]
    rw [if_neg (by simp [hpy])]
    cases env.handshakeResult <;> simp

/-- Witness for endpoint_kind_check at a concrete unrecognized path. -/
theorem endpoint_kind_check_witness :
    handler_process_query badEndpointEnv "weather" 10 =
      some (.error .unsupportedEndpointKind, [.cleanup]) :=
  endpoint_kind_check.2.1 badEndpointEnv "weather" 10 (by decide)

/-- C3 counterexample: appending a tool result whose identifier has no
matching request earlier in the history does not fail in the code; the result
message is appended unconditionally, while the check described by the spec
would have failed with danglingToolResult. -/
theorem orphan_tool_result_append_succeeds :
    append_tool_result [Message.user "q"] "tu1" "p" =
      [Message.user "q", Message.tool_result "tu1" "p"] ∧
    append_tool_result_spec [Message.user "q"] "tu1" "p" =
      .error .danglingToolResult := by
  constructor
  · rfl
  · rfl

/-- C3 amended: the code performs no matching-request check when appending a
tool result: the append always succeeds and appends the result message, even
when no matching request exists earlier (in which case the history invariant
is broken by the append); only the spec-modelled variant with the
DanglingToolResult check succeeds exactly when a matching request exists. -/
theorem tool_result_append_unchecked :
    (∀ (ms : List Message) (id p : String),
        append_tool_result ms id p = ms ++ [Message.tool_result id p]) ∧
    (∀ (ms : List Message) (id p : String), id ∈ ms.flatMap requestIds →
        append_tool_result_spec ms id p = .ok (ms ++ [Message.tool_result id p])) ∧
    (∀ (ms : List Message) (id p : String), id ∉ ms.flatMap requestIds →
        ¬ histInvariant (append_tool_result ms id p)) := by
  refine ⟨fun ms id p => rfl, ?_, ?_⟩
  · intro ms id p hmem
    simp [append_tool_result_spec, hmem]
  · intro ms id p hnot hinv
    have hget : (append_tool_result ms id p)[ms.length]? =
        some (Message.tool_result id p) := by
      rw [append_tool_result, List.getElem?_append_right (Nat.le_refl _)]
      simp
    have hres : id ∈ resultIds (Message.tool_result id p) := by
      simp [resultIds, Message.tool_result]
    have htake : (append_tool_result ms id p).take ms.length = ms := by
      rw [append_tool_result, List.take_append_of_le_length (Nat.le_refl _),
        List.take_length]
    have := hinv ms.length (Message.tool_result id p) hget id hres
    rw [htake] at this
    exact hnot this

/-- Witness for tool_result_append_unchecked: appending a result with a
matching earlier request succeeds in the spec-modelled variant too. -/
theorem tool_result_append_unchecked_witness :
    append_tool_result_spec [Message.tool_request "tu1" "get_forecast" "x"] "tu1" "p" =
      .ok ([Message.tool_request "tu1" "get_forecast" "x"] ++
           [Message.tool_result "tu1" "p"]) :=
  tool_result_append_unchecked.2.1
    [Message.tool_request "tu1" "get_forecast" "x"] "tu1" "p" (by decide)

/-- Unfolding of one while-loop iteration on a tool_use response: the blocks
are processed first (issuing any re-requests inside that pass), and only then
is the turn counter incremented and compared against the bound. -/
theorem processLoop_toolUse_step (env : Env) (tools : List BedrockTool) (fuel : Nat)
    (resp resp₂ : BedrockResponse) (ft ft₂ : List String) (ms ms₂ : List Message)
    (tc : Nat) (ev ev₂ : List Event) (h : resp.stopReason = "tool_use")
    (hpb : processBlocks env tools resp.content (ft ++ ["received toolUse request"])
        ms resp ev = (.ok (ft₂, ms₂, resp₂), ev₂)) :
    processLoop env tools (fuel + 1) resp ft ms tc ev =
      if tc + 1 ≥ 10 then
        some (.ok (ft₂ ++ ["\n[Max turns reached, ending conversation.]"], ms₂), ev₂)
      else
        processLoop env tools fuel resp₂ ft₂ ms₂ (tc + 1) ev₂ := by
  rw [processLoop, if_pos h, hpb]

/-- C2 counterexample: with a model that requests a tool on every round trip,
the loop terminates at turn counter 10 but has issued 10 model re-requests
from inside the loop; a check placed before issuing the next request would
have allowed at most 9, because the re-request of the tenth processed
response would not be issued. -/
theorem ten_tool_use_iterations_ten_model_calls :
    (processLoop loopTEnv.env [] 20 toolUseResp [] [] 0 []).map
        (fun p => p.2.countP isModelCall) = some 10 := by
  rfl

/-- C2 amended: the turn counter increments by exactly 1 per tool_use
iteration and the loop forcibly terminates with the max-turns notice once the
counter reaches 10, regardless of the stop reason of the response obtained
last; but the check runs only after the blocks of the response have been
processed, that is after the re-requests for its tool blocks have already
been issued, so the response of the last such re-request is discarded. -/
theorem turn_counter_step :
    (∀ (env : Env) (tools : List BedrockTool) (fuel : Nat) (resp resp₂ : BedrockResponse)
        (ft ft₂ : List String) (ms ms₂ : List Message) (tc : Nat) (ev ev₂ : List Event),
        resp.stopReason = "tool_use" →
        processBlocks env tools resp.content (ft ++ ["received toolUse request"])
            ms resp ev = (.ok (ft₂, ms₂, resp₂), ev₂) →
        tc + 1 < 10 →
        processLoop env tools (fuel + 1) resp ft ms tc ev =
          processLoop env tools fuel resp₂ ft₂ ms₂ (tc + 1) ev₂) ∧
    (∀ (env : Env) (tools : List BedrockTool) (fuel : Nat) (resp resp₂ : BedrockResponse)
        (ft ft₂ : List String) (ms ms₂ : List Message) (tc : Nat) (ev ev₂ : List Event),
        resp.stopReason = "tool_use" →
        processBlocks env tools resp.content (ft ++ ["received toolUse request"])
            ms resp ev = (.ok (ft₂, ms₂, resp₂), ev₂) →
        10 ≤ tc + 1 →
        processLoop env tools (fuel + 1) resp ft ms tc ev =
          some (.ok (ft₂ ++ ["\n[Max turns reached, ending conversation.]"], ms₂), ev₂)) := by
  constructor
  · intro env tools fuel resp resp₂ ft ft₂ ms ms₂ tc ev ev₂ h hpb hlt
    rw [processLoop_toolUse_step env tools fuel resp resp₂ ft ft₂ ms ms₂ tc ev ev₂ h hpb]
    rw [if_neg (by omega)]
  · intro env tools fuel resp resp₂ ft ft₂ ms ms₂ tc ev ev₂ h hpb hge
    rw [processLoop_toolUse_step env tools fuel resp resp₂ ft ft₂ ms ms₂ tc ev ev₂ h hpb]
    rw [if_pos (by omega)]

/-- Witness for turn_counter_step: at turn counter 9 one more tool_use
response is processed (its re-request already issued, visible in the trace)
and the loop then terminates with the max-turns notice. -/
theorem turn_counter_step_witness :
    processLoop loopTEnv.env [] 3 toolUseResp [] [] 9 [] =
      some (.ok (["received toolUse request",
                  "[Calling tool get_forecast with args lat lon]",
                  "\n[Max turns reached, ending conversation.]"],
                 [Message.tool_request "tu1" "get_forecast" "lat lon",
                  Message.tool_result "tu1" "sunny"]),
            [.toolCall "get_forecast", .modelCall]) := by
  simpa using turn_counter_step.2 loopTEnv.env [] 2 toolUseResp toolUseResp []
    ["received toolUse request", "[Calling tool get_forecast with args lat lon]"]
    [] [Message.tool_request "tu1" "get_forecast" "lat lon",
        Message.tool_result "tu1" "sunny"] 9 []
    [.toolCall "get_forecast", .modelCall] rfl rfl (by omega)

/-- C1 counterexample: a tool_use response carrying two tool blocks makes the
loop issue two model re-requests while processing that single response, not
exactly one after all blocks are processed. -/
theorem two_tool_blocks_two_model_calls :
    (processLoop settleTEnv.env [] 5 twoToolResp [] [] 0 []).map
        (fun p => p.2.countP isModelCall) = some 2 := by
  rfl

/-- C1 amended: within a tool_use response the blocks are processed in order,
a text block appending assistant text to history and a thinking fragment to
the narrative, a tool block appending its request then its result to history
and immediately afterwards re-invoking the model gateway with the history as
updated so far; the gateway is thus re-invoked once per tool block of the
response (not once per response), and the next loop iteration uses the
response of the last such call. -/
theorem tool_use_block_processing :
    (∀ (env : Env) (tools : List BedrockTool) (s : String) (rest : List RespBlock)
        (ft : List String) (ms : List Message) (resp : BedrockResponse) (ev : List Event),
        processBlocks env tools (.text s :: rest) ft ms resp ev =
          processBlocks env tools rest (ft ++ ["[Thinking: " ++ s ++ "]"])
            (ms ++ [Message.assistant s]) resp ev) ∧
    (∀ (t : TotalEnv) (tools : List BedrockTool) (id name : String) (input : ToolInput)
        (rest : List RespBlock) (ft : List String) (ms : List Message)
        (resp : BedrockResponse) (ev : List Event),
        processBlocks t.env tools (.toolUse id name input :: rest) ft ms resp ev =
          processBlocks t.env tools rest
            (ft ++ ["[Calling tool " ++ name ++ " with args " ++ input ++ "]"])
            (ms ++ [Message.tool_request id name input,
                    Message.tool_result id (t.callTool name input)])
            (t.model (ms ++ [Message.tool_request id name input,
                             Message.tool_result id (t.callTool name input)]) tools)
            (ev ++ [.toolCall name, .modelCall])) ∧
    (∀ (t : TotalEnv) (tools : List BedrockTool) (blocks : List RespBlock)
        (ft : List String) (ms : List Message) (resp : BedrockResponse) (ev : List Event),
        ∃ ft₂ ms₂ resp₂ evAdd,
          processBlocks t.env tools blocks ft ms resp ev =
            (.ok (ft₂, ms₂, resp₂), ev ++ evAdd) ∧
          evAdd.countP isModelCall = countToolUse blocks) := by
  refine ⟨fun env tools s rest ft ms resp ev => rfl,
          fun t tools id name input rest ft ms resp ev => rfl, ?_⟩
  intro t tools blocks
  induction blocks with
  | nil =>
      intro ft ms resp ev
      exact ⟨ft, ms, resp, [], by simp [processBlocks], by simp [countToolUse]⟩
  | cons b rest ih =>
      intro ft ms resp ev
      cases b with
      | text s =>
          obtain ⟨ft₂, ms₂, resp₂, evAdd, heq, hcount⟩ :=
            ih (ft ++ ["[Thinking: " ++ s ++ "]"]) (ms ++ [Message.assistant s]) resp ev
          refine ⟨ft₂, ms₂, resp₂, evAdd, ?_, ?_⟩
          · rw [processBlocks]
            exact heq
          · rw [hcount]
            simp [countToolUse, List.countP_cons]
      | toolUse id name input =>
          obtain ⟨ft₂, ms₂, resp₂, evAdd, heq, hcount⟩ :=
            ih (ft ++ ["[Calling tool " ++ name ++ " with args " ++ input ++ "]"])
              (ms ++ [Message.tool_request id name input,
                      Message.tool_result id (t.callTool name input)])
              (t.model (ms ++ [Message.tool_request id name input,
                               Message.tool_result id (t.callTool name input)]) tools)
              (ev ++ [.toolCall name, .modelCall])
          refine ⟨ft₂, ms₂, resp₂, Event.toolCall name :: Event.modelCall :: evAdd, ?_, ?_⟩
          · rw [show processBlocks t.env tools (.toolUse id name input :: rest) ft ms resp ev =
                processBlocks t.env tools rest
                  (ft ++ ["[Calling tool " ++ name ++ " with args " ++ input ++ "]"])
                  (ms ++ [Message.tool_request id name input,
                          Message.tool_result id (t.callTool name input)])
                  (t.model (ms ++ [Message.tool_request id name input,
                                   Message.tool_result id (t.callTool name input)]) tools)
                  (ev ++ [.toolCall name, .modelCall]) from rfl]
            rw [heq]
            simp
          · simp [List.countP_cons, isModelCall, countToolUse] at hcount ⊢
            omega

/-- C5 counterexample: for an end_turn response whose content carries two
text blocks the loop appends the text of the first block, not the final text
block, to the narrative. -/
theorem end_turn_takes_first_text_block :
    processLoop settleTEnv.env [] 5 ⟨"end_turn", [.text "a", .text "b"]⟩ [] [] 0 [] =
      some (.ok (["a"], []), []) ∧ ("a" : String) ≠ "b" :=
  ⟨rfl, by decide⟩

/-- C5 amended: max_tokens, stop_sequence, content_filtered and end_turn are
terminal: the loop returns in that iteration without issuing any further
model gateway call (the event trace is unchanged), appending the respective
notice, and for end_turn appending the text of the first content block of the
response as the answer. -/
theorem terminal_stop_reasons :
    (∀ (env : Env) (tools : List BedrockTool) (fuel : Nat) (resp : BedrockResponse)
        (ft : List String) (ms : List Message) (tc : Nat) (ev : List Event),
        resp.stopReason = "max_tokens" →
        processLoop env tools (fuel + 1) resp ft ms tc ev =
          some (.ok (ft ++ ["[Max tokens reached, ending conversation.]"], ms), ev)) ∧
    (∀ (env : Env) (tools : List BedrockTool) (fuel : Nat) (resp : BedrockResponse)
        (ft : List String) (ms : List Message) (tc : Nat) (ev : List Event),
        resp.stopReason = "stop_sequence" →
        processLoop env tools (fuel + 1) resp ft ms tc ev =
          some (.ok (ft ++ ["[Stop sequence reached, ending conversation.]"], ms), ev)) ∧
    (∀ (env : Env) (tools : List BedrockTool) (fuel : Nat) (resp : BedrockResponse)
        (ft : List String) (ms : List Message) (tc : Nat) (ev : List Event),
        resp.stopReason = "content_filtered" →
        processLoop env tools (fuel + 1) resp ft ms tc ev =
          some (.ok (ft ++ ["[Content filtered, ending conversation.]"], ms), ev)) ∧
    (∀ (env : Env) (tools : List BedrockTool) (fuel : Nat) (resp : BedrockResponse)
        (ft : List String) (ms : List Message) (tc : Nat) (ev : List Event)
        (t : String) (rest : List RespBlock),
        resp.stopReason = "end_turn" → resp.content = .text t :: rest →
        processLoop env tools (fuel + 1) resp ft ms tc ev =
          some (.ok (ft ++ [t], ms), ev)) := by
  refine ⟨?_, ?_, ?_, ?_⟩
  · intro env tools fuel resp ft ms tc ev h
    rw [processLoop, if_neg (by rw [h]; decide), if_pos h]
  · intro env tools fuel resp ft ms tc ev h
    rw [processLoop, if_neg (by rw [h]; decide), if_neg (by rw [h]; decide), if_pos h]
  · intro env tools fuel resp ft ms tc ev h
    rw [processLoop, if_neg (by rw [h]; decide), if_neg (by rw [h]; decide),
      if_neg (by rw [h]; decide), if_pos h]
  · intro env tools fuel resp ft ms tc ev t rest h hc
    rw [processLoop, if_neg (by rw [h]; decide), if_neg (by rw [h]; decide),
      if_neg (by rw [h]; decide), if_neg (by rw [h]; decide), if_pos h, hc]
    rfl

/-- Witness for terminal_stop_reasons on a concrete end_turn response. -/
theorem terminal_stop_reasons_witness :
    processLoop settleTEnv.env [] 4 endTurnResp ["x"] [] 0 [] =
      some (.ok (["x", "done"], []), []) := by
  simpa using terminal_stop_reasons.2.2.2 settleTEnv.env [] 3 endTurnResp
    ["x"] [] 0 [] "done" [] rfl rfl

/-- The response loop always returns within the fuel bound: every iteration
either breaks or increments the turn counter, and the counter is capped at
10. -/
theorem processLoop_total (env : Env) (tools : List BedrockTool) :
    ∀ (fuel tc : Nat) (resp : BedrockResponse) (ft : List String) (ms : List Message)
      (ev : List Event), 10 ≤ tc + fuel → 1 ≤ fuel →
      (processLoop env tools fuel resp ft ms tc ev).isSome = true := by
  intro fuel
  induction fuel with
  | zero => intro tc resp ft ms ev h h1; omega
  | succ n ih =>
      intro tc resp ft ms ev h _
      rw [processLoop]
      split
      · split
        · rfl
        · split
          · rfl
          · exact ih (tc + 1) _ _ _ _ (by omega) (by omega)
      · split
        · rfl
        · split
          · rfl
          · split
            · rfl
            · split
              · split <;> rfl
              · split
                · rfl
                · exact ih (tc + 1) _ _ _ _ (by omega) (by omega)

/-- C4: for every environment, that is for every (possibly unbounded) stream
of model responses, including a model that answers tool_use on every round
trip, the loop always returns: fuel covering the remaining turn budget (10
iterations from a fresh counter) is never exhausted, so the loop is a total
function of the response stream; and when the bound is hit, that is when a
tool_use iteration raises the turn counter to 10, the loop returns right then
with the max-turns notice appended to the narrative. -/
theorem loop_terminates_within_bound :
    (∀ (env : Env) (tools : List BedrockTool) (fuel : Nat) (resp : BedrockResponse)
        (ft : List String) (ms : List Message) (tc : Nat) (ev : List Event),
        10 ≤ tc + fuel → 1 ≤ fuel →
        (processLoop env tools fuel resp ft ms tc ev).isSome = true) ∧
    (∀ (env : Env) (tools : List BedrockTool) (fuel : Nat) (resp resp₂ : BedrockResponse)
        (ft ft₂ : List String) (ms ms₂ : List Message) (tc : Nat) (ev ev₂ : List Event),
        resp.stopReason = "tool_use" →
        processBlocks env tools resp.content (ft ++ ["received toolUse request"])
            ms resp ev = (.ok (ft₂, ms₂, resp₂), ev₂) →
        10 ≤ tc + 1 →
        processLoop env tools (fuel + 1) resp ft ms tc ev =
          some (.ok (ft₂ ++ ["\n[Max turns reached, ending conversation.]"], ms₂), ev₂)) := by
  constructor
  · intro env tools fuel resp ft ms tc ev hfuel hpos
    exact processLoop_total env tools fuel tc resp ft ms ev hfuel hpos
  · intro env tools fuel resp resp₂ ft ft₂ ms ms₂ tc ev ev₂ h hpb hge
    rw [processLoop_toolUse_step env tools fuel resp resp₂ ft ft₂ ms ms₂ tc ev ev₂ h hpb]
    rw [if_pos (by omega)]

/-- Witness for loop_terminates_within_bound: the everlasting tool_use model
still ends within fuel 10, and on the bound-hitting iteration the max-turns
notice is appended. -/
theorem loop_terminates_within_bound_witness :
    (processLoop loopTEnv.env [] 10 toolUseResp [] [] 0 []).isSome = true ∧
    processLoop loopTEnv.env [] 7 toolUseResp ["pre"] [] 9 [] =
      some (.ok (["pre", "received toolUse request",
                  "[Calling tool get_forecast with args lat lon]",
                  "\n[Max turns reached, ending conversation.]"],
                 [Message.tool_request "tu1" "get_forecast" "lat lon",
                  Message.tool_result "tu1" "sunny"]),
            [.toolCall "get_forecast", .modelCall]) := by
  constructor
  · exact loop_terminates_within_bound.1 loopTEnv.env [] 10 toolUseResp [] [] 0 []
      (by omega) (by omega)
  · simpa using loop_terminates_within_bound.2 loopTEnv.env [] 6 toolUseResp toolUseResp
      ["pre"] ["pre", "received toolUse request",
               "[Calling tool get_forecast with args lat lon]"]
      [] [Message.tool_request "tu1" "get_forecast" "lat lon",
          Message.tool_result "tu1" "sunny"] 9 []
      [.toolCall "get_forecast", .modelCall] rfl rfl (by omega)

/-- Processing a block list without toolUse blocks only appends the thinking
fragments and the assistant turns; no gateway call is made and the current
response is unchanged. -/
theorem processBlocks_noToolUse (env : Env) (tools : List BedrockTool) :
    ∀ (blocks : List RespBlock), hasNoToolUse blocks = true →
    ∀ (ft : List String) (ms : List Message) (resp : BedrockResponse) (ev : List Event),
      processBlocks env tools blocks ft ms resp ev =
        (.ok (ft ++ thinkingTexts blocks, ms ++ assistantTurns blocks, resp), ev) := by
  intro blocks
  induction blocks with
  | nil =>
      intro _ ft ms resp ev
      simp [processBlocks, thinkingTexts, assistantTurns]
  | cons b rest ih =>
      intro hno ft ms resp ev
      cases b with
      | text s =>
          have hrest : hasNoToolUse rest = true := by
            simpa [hasNoToolUse] using hno
          rw [processBlocks, ih hrest]
          simp [thinkingTexts, assistantTurns, List.append_assoc]
      | toolUse id n i => simp [hasNoToolUse] at hno

/-- Unfolding lemma for the repeated spin narrative. -/
theorem iterRepeat_succ (k : Nat) (resp : BedrockResponse) :
    iterRepeat (k + 1) resp = iterOut resp ++ iterRepeat k resp := by
  simp [iterRepeat, List.replicate_succ]

/-- Unfolding lemma for the repeated spin history additions. -/
theorem msRepeat_succ (k : Nat) (resp : BedrockResponse) :
    msRepeat (k + 1) resp = assistantTurns resp.content ++ msRepeat k resp := by
  simp [msRepeat, List.replicate_succ]

/-- A tool_use response without toolUse blocks is re-processed unchanged on
every iteration, appending the same narrative and history additions each
time, until the turn counter reaches 10. -/
theorem processLoop_noToolUse_spin (env : Env) (tools : List BedrockTool)
    (resp : BedrockResponse) (h1 : resp.stopReason = "tool_use")
    (h2 : hasNoToolUse resp.content = true) :
    ∀ (fuel tc : Nat), tc < 10 → 10 - tc ≤ fuel →
    ∀ (ft : List String) (ms : List Message) (ev : List Event),
      processLoop env tools fuel resp ft ms tc ev =
        some (.ok (ft ++ iterRepeat (10 - tc) resp ++
                     ["\n[Max turns reached, ending conversation.]"],
                   ms ++ msRepeat (10 - tc) resp), ev) := by
  intro fuel
  induction fuel with
  | zero => intro tc h hf; omega
  | succ n ih =>
      intro tc htc hf ft ms ev
      have hpb := processBlocks_noToolUse env tools resp.content h2
        (ft ++ ["received toolUse request"]) ms resp ev
      rw [processLoop_toolUse_step env tools n resp resp
        ft ((ft ++ ["received toolUse request"]) ++ thinkingTexts resp.content)
        ms (ms ++ assistantTurns resp.content) tc ev ev h1 hpb]
      by_cases h9 : tc + 1 ≥ 10
      · rw [if_pos h9]
        have h1tc : 10 - tc = 0 + 1 := by omega
        rw [h1tc, iterRepeat_succ, msRepeat_succ]
        simp [iterRepeat, msRepeat, iterOut, List.append_assoc]
      · rw [if_neg h9]
        rw [ih (tc + 1) (by omega) (by omega)]
        have h10 : 10 - tc = (10 - (tc + 1)) + 1 := by omega
        rw [h10, iterRepeat_succ, msRepeat_succ]
        simp [iterOut, List.append_assoc]

/-- C10: a tool_use response whose content has no toolUse block makes the
loop issue no further gateway request (the event trace is unchanged) and not
terminate that iteration: the same response is re-processed on every
iteration, appending the same assistant turns to history and the same
narrative fragments once per iteration, until the turn counter reaches 10 and
the max-turns notice is emitted. -/
theorem textual_tool_use_spins_to_max_turns (env : Env) (tools : List BedrockTool)
    (resp : BedrockResponse) (ft : List String) (ms : List Message) (ev : List Event)
    (fuel : Nat) (h1 : resp.stopReason = "tool_use")
    (h2 : hasNoToolUse resp.content = true) (hf : 10 ≤ fuel) :
    processLoop env tools fuel resp ft ms 0 ev =
      some (.ok (ft ++ iterRepeat 10 resp ++
                   ["\n[Max turns reached, ending conversation.]"],
                 ms ++ msRepeat 10 resp), ev) := by
  simpa using processLoop_noToolUse_spin env tools resp h1 h2 fuel 0
    (by omega) (by omega) ft ms ev

/-- Witness for textual_tool_use_spins_to_max_turns at a concrete text-only
tool_use response. -/
theorem textual_tool_use_spins_to_max_turns_witness :
    processLoop loopTEnv.env [] 10 textOnlyToolUseResp [] [] 0 [] =
      some (.ok (iterRepeat 10 textOnlyToolUseResp ++
                   ["\n[Max turns reached, ending conversation.]"],
                 msRepeat 10 textOnlyToolUseResp), []) := by
  simpa using textual_tool_use_spins_to_max_turns loopTEnv.env [] textOnlyToolUseResp
    [] [] [] 10 rfl (by decide) (by omega)

/-- Appending one message whose tool results all have requests somewhere in
the existing history preserves the history invariant. -/
theorem histInvariant_append {ms : List Message} {m : Message}
    (h : histInvariant ms)
    (hm : ∀ id ∈ resultIds m, id ∈ ms.flatMap requestIds) :
    histInvariant (ms ++ [m]) := by
  intro i mi hmi id hid
  rcases Nat.lt_or_ge i ms.length with hi | hi
  · rw [List.getElem?_append_left hi] at hmi
    rw [List.take_append_of_le_length (Nat.le_of_lt hi)]
    exact h i mi hmi id hid
  · rw [List.getElem?_append_right hi] at hmi
    have hieq : i = ms.length := by
      rcases hn : i - ms.length with _ | k
      · omega
      · rw [hn] at hmi; simp at hmi
    have hmieq : mi = m := by
      rw [hieq] at hmi
      simp at hmi
      exact hmi.symm
    rw [hieq, List.take_append_of_le_length (Nat.le_refl _), List.take_length]
    exact hm id (hmieq ▸ hid)

/-- Appending a request and its result as a pair preserves the history
invariant: the result finds its matching request immediately before it. -/
theorem histInvariant_append_pair {ms : List Message} (h : histInvariant ms)
    (id n : String) (i : ToolInput) (p : String) :
    histInvariant (ms ++ [Message.tool_request id n i, Message.tool_result id p]) := by
  have h1 : histInvariant (ms ++ [Message.tool_request id n i]) :=
    histInvariant_append h (by simp [resultIds, Message.tool_request])
  have h2 : histInvariant
      ((ms ++ [Message.tool_request id n i]) ++ [Message.tool_result id p]) := by
    apply histInvariant_append h1
    intro x hx
    simp [resultIds, Message.tool_result] at hx
    subst hx
    exact List.mem_flatMap.mpr ⟨Message.tool_request x n i, by simp,
      by simp [requestIds, Message.tool_request]⟩
  simpa using h2

/-- The block-processing pass only appends assistant text or request/result
pairs to the history, so it preserves the history invariant. -/
theorem processBlocks_invariant (env : Env) (tools : List BedrockTool) :
    ∀ (blocks : List RespBlock) (ft : List String) (ms : List Message)
      (resp : BedrockResponse) (ev : List Event) (ft₂ : List String)
      (ms₂ : List Message) (resp₂ : BedrockResponse) (ev₂ : List Event),
      processBlocks env tools blocks ft ms resp ev = (.ok (ft₂, ms₂, resp₂), ev₂) →
      histInvariant ms → histInvariant ms₂ := by
  intro blocks
  induction blocks with
  | nil =>
      intro ft ms resp ev ft₂ ms₂ resp₂ ev₂ h hinv
      rw [processBlocks] at h
      simp only [Prod.mk.injEq, Except.ok.injEq] at h
      obtain ⟨⟨-, h2, -⟩, -⟩ := h
      exact h2 ▸ hinv
  | cons b rest ih =>
      intro ft ms resp ev ft₂ ms₂ resp₂ ev₂ h hinv
      cases b with
      | text s =>
          rw [processBlocks] at h
          exact ih _ _ _ _ _ _ _ _ h
            (histInvariant_append hinv (by simp [resultIds, Message.assistant]))
      | toolUse id n i =>
          rw [processBlocks, handle_tool_call] at h
          cases hc : env.callTool n i with
          | error e => simp [hc] at h
          | ok payload =>
              simp only [hc] at h
              cases hm2 : env.model (ms ++ [Message.tool_request id n i,
                  Message.tool_result id payload]) tools with
              | error e => simp [hm2] at h
              | ok resp₃ =>
                  simp only [hm2] at h
                  exact ih _ _ _ _ _ _ _ _ h (histInvariant_append_pair hinv id n i payload)

/-- The response loop preserves the history invariant: every change to the
history goes through the block-processing pass. -/
theorem processLoop_invariant (env : Env) (tools : List BedrockTool) :
    ∀ (fuel : Nat) (resp : BedrockResponse) (ft : List String) (ms : List Message)
      (tc : Nat) (ev : List Event) (ft₂ : List String) (ms₂ : List Message)
      (ev₂ : List Event),
      processLoop env tools fuel resp ft ms tc ev = some (.ok (ft₂, ms₂), ev₂) →
      histInvariant ms → histInvariant ms₂ := by
  intro fuel
  induction fuel with
  | zero =>
      intro resp ft ms tc ev ft₂ ms₂ ev₂ h
      rw [processLoop] at h
      exact absurd h (by simp)
  | succ n ih =>
      intro resp ft ms tc ev ft₂ ms₂ ev₂ h hinv
      rw [processLoop] at h
      split at h
      · split at h
        · simp at h
        · rename_i ft₃ ms₃ resp₃ ev₃ heq
          have hinv₃ : histInvariant ms₃ :=
            processBlocks_invariant env tools _ _ _ _ _ _ _ _ _ heq hinv
          split at h
          · simp only [Option.some.injEq, Prod.mk.injEq, Except.ok.injEq] at h
            obtain ⟨⟨-, h2⟩, -⟩ := h
            exact h2 ▸ hinv₃
          · exact ih _ _ _ _ _ _ _ _ h hinv₃
      · split at h
        · simp only [Option.some.injEq, Prod.mk.injEq, Except.ok.injEq] at h
          obtain ⟨⟨-, h2⟩, -⟩ := h
          exact h2 ▸ hinv
        · split at h
          · simp only [Option.some.injEq, Prod.mk.injEq, Except.ok.injEq] at h
            obtain ⟨⟨-, h2⟩, -⟩ := h
            exact h2 ▸ hinv
          · split at h
            · simp only [Option.some.injEq, Prod.mk.injEq, Except.ok.injEq] at h
              obtain ⟨⟨-, h2⟩, -⟩ := h
              exact h2 ▸ hinv
            · split at h
              · split at h
                · simp only [Option.some.injEq, Prod.mk.injEq, Except.ok.injEq] at h
                  obtain ⟨⟨-, h2⟩, -⟩ := h
                  exact h2 ▸ hinv
                · simp at h
                · simp at h
              · split at h
                · simp only [Option.some.injEq, Prod.mk.injEq, Except.ok.injEq] at h
                  obtain ⟨⟨-, h2⟩, -⟩ := h
                  exact h2 ▸ hinv
                · exact ih _ _ _ _ _ _ _ _ h hinv

/-- C6: every reachable history state satisfies the invariant that a tool
result is preceded by a matching tool request: appending user text, assistant
text, a tool request, or a dispatched request/result pair preserves the
invariant, and so do the block-processing pass and the whole response
loop. -/
theorem history_invariant_preserved :
    (∀ (ms : List Message) (t : String), histInvariant ms →
        histInvariant (ms ++ [Message.user t])) ∧
    (∀ (ms : List Message) (t : String), histInvariant ms →
        histInvariant (ms ++ [Message.assistant t])) ∧
    (∀ (ms : List Message) (id n : String) (i : ToolInput), histInvariant ms →
        histInvariant (ms ++ [Message.tool_request id n i])) ∧
    (∀ (ms : List Message) (id n : String) (i : ToolInput) (p : String),
        histInvariant ms →
        histInvariant (ms ++ [Message.tool_request id n i, Message.tool_result id p])) ∧
    (∀ (env : Env) (tools : List BedrockTool) (blocks : List RespBlock)
        (ft : List String) (ms : List Message) (resp : BedrockResponse) (ev : List Event)
        (ft₂ : List String) (ms₂ : List Message) (resp₂ : BedrockResponse)
        (ev₂ : List Event),
        processBlocks env tools blocks ft ms resp ev = (.ok (ft₂, ms₂, resp₂), ev₂) →
        histInvariant ms → histInvariant ms₂) ∧
    (∀ (env : Env) (tools : List BedrockTool) (fuel : Nat) (resp : BedrockResponse)
        (ft : List String) (ms : List Message) (tc : Nat) (ev : List Event)
        (ft₂ : List String) (ms₂ : List Message) (ev₂ : List Event),
        processLoop env tools fuel resp ft ms tc ev = some (.ok (ft₂, ms₂), ev₂) →
        histInvariant ms → histInvariant ms₂) := by
  refine ⟨?_, ?_, ?_, ?_, ?_, ?_⟩
  · intro ms t h
    exact histInvariant_append h (by simp [resultIds, Message.user])
  · intro ms t h
    exact histInvariant_append h (by simp [resultIds, Message.assistant])
  · intro ms id n i h
    exact histInvariant_append h (by simp [resultIds, Message.tool_request])
  · intro ms id n i p h
    exact histInvariant_append_pair h id n i p
  · intro env tools blocks ft ms resp ev ft₂ ms₂ resp₂ ev₂ h hinv
    exact processBlocks_invariant env tools blocks ft ms resp ev ft₂ ms₂ resp₂ ev₂ h hinv
  · intro env tools fuel resp ft ms tc ev ft₂ ms₂ ev₂ h hinv
    exact processLoop_invariant env tools fuel resp ft ms tc ev ft₂ ms₂ ev₂ h hinv

/-- Witness for history_invariant_preserved: the invariant holds after
seeding an empty history with a user turn. -/
theorem history_invariant_preserved_witness :
    histInvariant [Message.user "hello"] := by
  have h0 : histInvariant ([] : List Message) := by
    intro i m hm
    simp at hm
  simpa using history_invariant_preserved.1 [] "hello" h0

/-- The block-processing pass emits only tool-call and model-call events,
never a cleanup event. -/
theorem processBlocks_trace_cleanup (env : Env) (tools : List BedrockTool) :
    ∀ (blocks : List RespBlock) (ft : List String) (ms : List Message)
      (resp : BedrockResponse) (ev : List Event),
      ((processBlocks env tools blocks ft ms resp ev).2).countP isCleanup =
        ev.countP isCleanup := by
  intro blocks
  induction blocks with
  | nil => intro ft ms resp ev; rfl
  | cons b rest ih =>
      intro ft ms resp ev
      cases b with
      | text s =>
          rw [processBlocks]
          exact ih _ _ _ _
      | toolUse id n i =>
          rw [processBlocks, handle_tool_call]
          cases hc : env.callTool n i with
          | error e => simp [List.countP_append, isCleanup]
          | ok payload =>
              dsimp only
              cases hm2 : env.model (ms ++ [Message.tool_request id n i,
                  Message.tool_result id payload]) tools with
              | error e => simp [List.countP_append, isCleanup]
              | ok resp₃ => simp [List.countP_append, isCleanup, ih]

/-- The response loop emits only tool-call and model-call events, never a
cleanup event. -/
theorem processLoop_trace_cleanup (env : Env) (tools : List BedrockTool) :
    ∀ (fuel : Nat) (resp : BedrockResponse) (ft : List String) (ms : List Message)
      (tc : Nat) (ev : List Event) (r : Except Err (List String × List Message))
      (tr : List Event),
      processLoop env tools fuel resp ft ms tc ev = some (r, tr) →
      tr.countP isCleanup = ev.countP isCleanup := by
  intro fuel
  induction fuel with
  | zero =>
      intro resp ft ms tc ev r tr h
      rw [processLoop] at h
      exact absurd h (by simp)
  | succ n ih =>
      intro resp ft ms tc ev r tr h
      rw [processLoop] at h
      split at h
      · split at h
        · rename_i e ev₃ heq
          have hev := processBlocks_trace_cleanup env tools resp.content
            (ft ++ ["received toolUse request"]) ms resp ev
          rw [heq] at hev
          simp only [Option.some.injEq, Prod.mk.injEq] at h
          obtain ⟨-, h2⟩ := h
          exact h2 ▸ hev
        · rename_i ft₃ ms₃ resp₃ ev₃ heq
          have hev := processBlocks_trace_cleanup env tools resp.content
            (ft ++ ["received toolUse request"]) ms resp ev
          rw [heq] at hev
          split at h
          · simp only [Option.some.injEq, Prod.mk.injEq] at h
            obtain ⟨-, h2⟩ := h
            exact h2 ▸ hev
          · exact (ih _ _ _ _ _ _ _ h).trans hev
      · split at h
        · simp only [Option.some.injEq, Prod.mk.injEq] at h
          obtain ⟨-, h2⟩ := h
          exact h2 ▸ rfl
        · split at h
          · simp only [Option.some.injEq, Prod.mk.injEq] at h
            obtain ⟨-, h2⟩ := h
            exact h2 ▸ rfl
          · split at h
            · simp only [Option.some.injEq, Prod.mk.injEq] at h
              obtain ⟨-, h2⟩ := h
              exact h2 ▸ rfl
            · split at h
              · split at h
                · simp only [Option.some.injEq, Prod.mk.injEq] at h
                  obtain ⟨-, h2⟩ := h
                  exact h2 ▸ rfl
                · simp only [Option.some.injEq, Prod.mk.injEq] at h
                  obtain ⟨-, h2⟩ := h
                  exact h2 ▸ rfl
                · simp only [Option.some.injEq, Prod.mk.injEq] at h
                  obtain ⟨-, h2⟩ := h
                  exact h2 ▸ rfl
              · split at h
                · simp only [Option.some.injEq, Prod.mk.injEq] at h
                  obtain ⟨-, h2⟩ := h
                  exact h2 ▸ rfl
                · exact ih _ _ _ _ _ _ _ h

/-- connect_to_server emits only process-start and handshake events. -/
theorem connect_trace_cleanup (env : FullEnv) (path : String) :
    ((connect_to_server env path).2).countP isCleanup = 0 := by
  rw [connect_to_server]
  split
  · rfl
  · cases env.handshakeResult <;> simp [isCleanup]

/-- With enough fuel for the turn budget, one client query always returns,
and its trace contains no cleanup event. -/
theorem client_process_query_some (env : FullEnv) (query : String) (fuel : Nat)
    (h10 : 10 ≤ fuel) :
    ∃ r tr, client_process_query env query fuel = some (r, tr) ∧
      tr.countP isCleanup = 0 := by
  rw [client_process_query]
  split
  · exact ⟨_, _, rfl, rfl⟩
  · rename_i available_tools hl
    split
    · exact ⟨_, _, rfl, rfl⟩
    · rename_i response hm
      split
      · rename_i ho
        have hs := processLoop_total env.toEnv (Message.to_bedrock_format available_tools)
          fuel 0 response [] [Message.user query] [] (by omega) (by omega)
        rw [ho] at hs
        simp at hs
      · rename_i ho
        have htr := processLoop_trace_cleanup env.toEnv
          (Message.to_bedrock_format available_tools) fuel response []
          [Message.user query] 0 [] _ _ ho
        exact ⟨_, _, rfl, by simpa [List.countP_append, isCleanup] using htr⟩
      · rename_i ho
        have htr := processLoop_trace_cleanup env.toEnv
          (Message.to_bedrock_format available_tools) fuel response []
          [Message.user query] 0 [] _ _ ho
        exact ⟨_, _, rfl, by simpa [List.countP_append, isCleanup] using htr⟩

/-- C9: for every execution of one query, whether it returns a result or
aborts with an error from session open, tool listing, a model gateway call or
a tool call, cleanup runs exactly once, as the last action, on every exit
path. -/
theorem cleanup_exactly_once (env : FullEnv) (query : String) (fuel : Nat)
    (h10 : 10 ≤ fuel) :
    ∃ r tr, handler_process_query env query fuel = some (r, tr) ∧
      tr.countP isCleanup = 1 ∧ tr.getLast? = some Event.cleanup := by
  rw [handler_process_query]
  have hct := connect_trace_cleanup env env.endpointPath
  rcases hc : connect_to_server env env.endpointPath with ⟨cres, ctr⟩
  rw [hc] at hct
  cases cres with
  | error e =>
      exact ⟨.error e, ctr ++ [.cleanup], rfl,
        by simp [List.countP_append, isCleanup, hct], List.getLast?_concat ctr⟩
  | ok u =>
      obtain ⟨r₂, tr₂, hcl, htr₂⟩ := client_process_query_some env query fuel h10
      rw [hcl]
      exact ⟨r₂, ctr ++ tr₂ ++ [.cleanup], rfl,
        by simp [List.countP_append, isCleanup, hct, htr₂],
        List.getLast?_concat (ctr ++ tr₂)⟩

/-- Witness for cleanup_exactly_once at a concrete successful environment. -/
theorem cleanup_exactly_once_witness :
    ∃ r tr, handler_process_query fullTestEnv "weather" 10 = some (r, tr) ∧
      tr.countP isCleanup = 1 ∧ tr.getLast? = some Event.cleanup :=
  cleanup_exactly_once fullTestEnv "weather" 10 (by omega)

end McpLambda
